import Mathlib

/-!
Verification of the dimension-computation and control-flow logic of
`VideoRatioTool.py` (`convert_videos_in_folder`).

The embedding is shallow: the arithmetic on clip dimensions is translated
from the Python source, with Python's real-number division modelled by
exact rational division (`ℚ`) and Python's `int(...)` conversion modelled
by truncation toward zero (`pyTrunc`).  The procedural body of
`convert_videos_in_folder` is modelled as a function from an environment
(library availability, directory existence, directory listing) to the list
of observable events the run produces, in source order.
-/

namespace VideoRatioTool

/-- Python `int(x)` on a real value: truncation toward zero. -/
def pyTrunc (q : ℚ) : ℤ :=
  if 0 ≤ q then Int.floor q else -Int.floor (-q)

/-- `n if n % 2 == 0 else n - 1` — the even-rounding applied to every
computed dimension in the source (lines 87, 94, 107, 112). -/
def evenDown (n : ℤ) : ℤ :=
  if n % 2 = 0 then n else n - 1

/-- Result of the `"crop"` branch (source lines 79–96): the size of the
clip returned by `clip.crop(...)` together with the keyword arguments the
source passes to `crop` (`x_center`/`width` in the wide branch,
`y_center`/`height` in the tall branch). -/
structure CropOut where
  width : ℤ
  height : ℤ
  x_center : Option ℚ
  y_center : Option ℚ
  deriving DecidableEq, Repr

/-- The `"crop"` dimension computation, translated from source lines
83–96.  `clip.crop(x_center=…, width=new_width)` keeps the full height and
crops the width symmetrically about `x_center`; dually for the other
branch. -/
def cropOut (w h wr hr : ℤ) : CropOut :=
  let original_aspect : ℚ := (w : ℚ) / (h : ℚ)
  let target_aspect : ℚ := (wr : ℚ) / (hr : ℚ)
  if original_aspect > target_aspect then
    let new_width := pyTrunc ((h : ℚ) * target_aspect)
    let new_width := evenDown new_width
    { width := new_width, height := h
      x_center := some ((w : ℚ) / 2), y_center := none }
  else
    let new_height := pyTrunc ((w : ℚ) / target_aspect)
    let new_height := evenDown new_height
    { width := w, height := new_height
      x_center := none, y_center := some ((h : ℚ) / 2) }

/-- Result of the `"letterbox"` branch (source lines 98–119): the canvas
(`ColorClip`) size and colour, and the top-left offset of the original
frame once `set_pos("center")` places it at
`((final_width - w)/2, (final_height - h)/2)` (exact coordinates). -/
structure LetterboxOut where
  width : ℤ
  height : ℤ
  bgColor : ℤ × ℤ × ℤ
  padLeft : ℚ
  padTop : ℚ
  deriving DecidableEq, Repr

/-- The `"letterbox"` dimension computation, translated from source lines
102–119. -/
def letterboxOut (w h wr hr : ℤ) : LetterboxOut :=
  let original_aspect : ℚ := (w : ℚ) / (h : ℚ)
  let target_aspect : ℚ := (wr : ℚ) / (hr : ℚ)
  if original_aspect > target_aspect then
    let final_width := w
    let final_height := evenDown (pyTrunc ((w : ℚ) / target_aspect))
    { width := final_width, height := final_height, bgColor := (0, 0, 0)
      padLeft := ((final_width : ℚ) - w) / 2
      padTop := ((final_height : ℚ) - h) / 2 }
  else
    let final_width := evenDown (pyTrunc ((h : ℚ) * target_aspect))
    let final_height := h
    { width := final_width, height := final_height, bgColor := (0, 0, 0)
      padLeft := ((final_width : ℚ) - w) / 2
      padTop := ((final_height : ℚ) - h) / 2 }

/-- Digit run of a Python integer literal accepted by `int(...)`:
decimal digits with single underscores allowed between digits. -/
def parseDigitsAux : ℕ → List Char → Option ℕ
  | acc, [] => some acc
  | acc, '_' :: c :: rest =>
      if c.isDigit then parseDigitsAux (acc * 10 + (c.toNat - 48)) rest else none
  | acc, c :: rest =>
      if c.isDigit then parseDigitsAux (acc * 10 + (c.toNat - 48)) rest else none

/-- Nonempty digit run (first character must be a digit). -/
def parseDigits : List Char → Option ℕ
  | [] => none
  | c :: rest => if c.isDigit then parseDigitsAux (c.toNat - 48) rest else none

/-- Python `int(s)` on a string: strip surrounding whitespace, optional
sign, then a decimal digit run; `none` models the `ValueError` raise.
(Non-ASCII digits and exotic Unicode whitespace are out of scope.) -/
def pyIntChars (l : List Char) : Option ℤ :=
  let t := ((l.dropWhile Char.isWhitespace).reverse.dropWhile Char.isWhitespace).reverse
  match t with
  | '+' :: rest => (parseDigits rest).map (fun n => (n : ℤ))
  | '-' :: rest => (parseDigits rest).map (fun n => -(n : ℤ))
  | rest => (parseDigits rest).map (fun n => (n : ℤ))

/-- Python `s.split(':')`: e.g. `"" ↦ [""]`, `"a:b" ↦ ["a","b"]`,
`"a:b:c" ↦ ["a","b","c"]`. -/
def splitOnColon : List Char → List (List Char)
  | [] => [[]]
  | ':' :: rest => [] :: splitOnColon rest
  | c :: rest =>
      match splitOnColon rest with
      | [] => [[c]]
      | g :: gs => (c :: g) :: gs

/-- Source lines 54–60: `w_ratio, h_ratio = map(int, s.split(':'))`
followed by `if w_ratio <= 0 or h_ratio <= 0: raise ValueError`.  Any
`ValueError` (wrong number of parts, a part that is not an integer, or a
non-positive component) yields `none`. -/
def parseRatio (s : String) : Option (ℤ × ℤ) :=
  match (splitOnColon s.toList).map pyIntChars with
  | [some w, some h] => if w ≤ 0 ∨ h ≤ 0 then none else some (w, h)
  | _ => none

/-- Source line 67: `filename.lower().endswith(('.mp4', '.mov', '.avi'))`. -/
def isVideoFile (name : String) : Bool :=
  let l := name.toList.map Char.toLower
  (".mp4".toList.isSuffixOf l) || (".mov".toList.isSuffixOf l)
    || (".avi".toList.isSuffixOf l)

/-- One entry of `os.listdir(folder_path)`: its name, whether it is a
regular file, and — for files the video library can open — the frame
size `clip.size` it would report. -/
structure FileEntry where
  name : String
  isFile : Bool
  width : ℤ
  height : ℤ
  deriving DecidableEq, Repr

/-- Ambient state the function observes: library availability, existence
of the input and output directories, and the input directory listing. -/
structure Env where
  moviepyInstalled : Bool
  folderExists : Bool
  outputExists : Bool
  listing : List FileEntry
  deriving DecidableEq, Repr

/-- Observable effects of a run, in program order. -/
inductive Event where
  | errMissingFolder
  | createOutputDir
  | errBadRatio
  | scanDir
  | loadFile (name : String)
  | errInvalidMethod (name : String)
  | writeFile (name : String) (outWidth outHeight : ℤ)
  deriving DecidableEq, Repr

def Event.isScan : Event → Bool
  | .scanDir => true
  | _ => false

def Event.isLoad : Event → Bool
  | .loadFile _ => true
  | _ => false

def Event.isWrite : Event → Bool
  | .writeFile _ _ _ => true
  | _ => false

/-- Body of the per-file loop (source lines 63–146) for one listing
entry: non-qualifying entries are skipped silently; a qualifying file is
loaded, transformed by the selected method and written, except that an
unrecognised method prints an error and `continue`s without writing.
(The letterbox output size is the `ColorClip` background size, which the
`CompositeVideoClip` adopts; the written filename is abstracted to the
source filename since output naming is not at issue in any claim.) -/
def processFile (wr hr : ℤ) (conversion_method : String) (e : FileEntry) :
    List Event :=
  if e.isFile && isVideoFile e.name then
    Event.loadFile e.name ::
      (if conversion_method = "crop" then
        let c := cropOut e.width e.height wr hr
        [Event.writeFile e.name c.width c.height]
      else if conversion_method = "letterbox" then
        let l := letterboxOut e.width e.height wr hr
        [Event.writeFile e.name l.width l.height]
      else
        [Event.errInvalidMethod e.name])
  else []

/-- The event trace of `convert_videos_in_folder` (source lines 21–146):
return silently if the library is missing; report and return if the input
folder is missing; create the output folder if absent; parse the ratio,
reporting and returning on failure; then scan the folder and process each
entry in order. -/
def convert_videos_in_folder (env : Env)
    (target_aspect_ratio conversion_method : String) : List Event :=
  if env.moviepyInstalled = false then []
  else if env.folderExists = false then [Event.errMissingFolder]
  else
    let mk := if env.outputExists then [] else [Event.createOutputDir]
    match parseRatio target_aspect_ratio with
    | none => mk ++ [Event.errBadRatio]
    | some (wr, hr) =>
        mk ++ Event.scanDir ::
          (env.listing.map (processFile wr hr conversion_method)).flatten

/-- A sample qualifying listing entry, used by concrete instantiations. -/
def fileA : FileEntry :=
  { name := "clip.mp4", isFile := true, width := 1920, height := 1080 }

/-- A sample environment with both directories present. -/
def envA : Env :=
  { moviepyInstalled := true, folderExists := true, outputExists := true
    listing := [fileA] }

/-- A sample environment whose output directory does not exist yet. -/
def envC : Env :=
  { moviepyInstalled := true, folderExists := true, outputExists := false
    listing := [fileA] }

/-! ### Helper lemmas -/

lemma evenDown_dvd (n : ℤ) : 2 ∣ evenDown n := by
  unfold evenDown; split <;> omega

lemma evenDown_le (n : ℤ) : evenDown n ≤ n := by
  unfold evenDown; split <;> omega

lemma sub_one_le_evenDown (n : ℤ) : n - 1 ≤ evenDown n := by
  unfold evenDown; split <;> omega

lemma pyTrunc_eq_floor {q : ℚ} (h : 0 ≤ q) : pyTrunc q = Int.floor q := by
  unfold pyTrunc; rw [if_pos h]

lemma filter_flatten_eq_nil {α : Type} (p : α → Bool) (ls : List (List α))
    (h : ∀ l ∈ ls, l.filter p = []) : ls.flatten.filter p = [] := by
  induction ls with
  | nil => simp
  | cons a t ih =>
      simp only [List.flatten_cons, List.filter_append]
      rw [h a (List.mem_cons_self a t), ih (fun l hl => h l (List.mem_cons_of_mem a hl))]
      rfl


lemma processFile_no_write (wr hr : ℤ) (method : String) (e : FileEntry)
    (hm1 : method ≠ "crop") (hm2 : method ≠ "letterbox") :
    (processFile wr hr method e).filter Event.isWrite = [] := by
  by_cases hq : (e.isFile && isVideoFile e.name) = true
  · dsimp only [processFile]
    rw [if_pos hq, if_neg hm1, if_neg hm2]
    rfl
  · dsimp only [processFile]
    rw [if_neg hq]
    rfl

lemma cropOut_wide (w h wr hr : ℤ)
    (hc : (w : ℚ) / (h : ℚ) > (wr : ℚ) / (hr : ℚ)) :
    cropOut w h wr hr
      = { width := evenDown (pyTrunc ((h : ℚ) * ((wr : ℚ) / (hr : ℚ))))
          height := h
          x_center := some ((w : ℚ) / 2), y_center := none } := by
  dsimp only [cropOut]
  rw [if_pos hc]

lemma cropOut_tall (w h wr hr : ℤ)
    (hc : ¬ (w : ℚ) / (h : ℚ) > (wr : ℚ) / (hr : ℚ)) :
    cropOut w h wr hr
      = { width := w
          height := evenDown (pyTrunc ((w : ℚ) / ((wr : ℚ) / (hr : ℚ))))
          x_center := none, y_center := some ((h : ℚ) / 2) } := by
  dsimp only [cropOut]
  rw [if_neg hc]

lemma letterboxOut_wide (w h wr hr : ℤ)
    (hc : (w : ℚ) / (h : ℚ) > (wr : ℚ) / (hr : ℚ)) :
    letterboxOut w h wr hr
      = { width := w
          height := evenDown (pyTrunc ((w : ℚ) / ((wr : ℚ) / (hr : ℚ))))
          bgColor := (0, 0, 0)
          padLeft := ((w : ℚ) - (w : ℚ)) / 2
          padTop := ((evenDown (pyTrunc ((w : ℚ) / ((wr : ℚ) / (hr : ℚ)))) : ℚ)
            - (h : ℚ)) / 2 } := by
  dsimp only [letterboxOut]
  rw [if_pos hc]

lemma letterboxOut_tall (w h wr hr : ℤ)
    (hc : ¬ (w : ℚ) / (h : ℚ) > (wr : ℚ) / (hr : ℚ)) :
    letterboxOut w h wr hr
      = { width := evenDown (pyTrunc ((h : ℚ) * ((wr : ℚ) / (hr : ℚ))))
          height := h
          bgColor := (0, 0, 0)
          padLeft := ((evenDown (pyTrunc ((h : ℚ) * ((wr : ℚ) / (hr : ℚ)))) : ℚ)
            - (w : ℚ)) / 2
          padTop := ((h : ℚ) - (h : ℚ)) / 2 } := by
  dsimp only [letterboxOut]
  rw [if_neg hc]

lemma convert_trace_badRatio (env : Env) (rs method : String)
    (h1 : env.moviepyInstalled = true) (h2 : env.folderExists = true)
    (hbad : parseRatio rs = none) :
    convert_videos_in_folder env rs method
      = (if env.outputExists then [] else [Event.createOutputDir])
          ++ [Event.errBadRatio] := by
  simp [convert_videos_in_folder, h1, h2, hbad]

lemma convert_trace_ok (env : Env) (rs method : String) (wr hr : ℤ)
    (h1 : env.moviepyInstalled = true) (h2 : env.folderExists = true)
    (hok : parseRatio rs = some (wr, hr)) :
    convert_videos_in_folder env rs method
      = (if env.outputExists then [] else [Event.createOutputDir])
          ++ Event.scanDir :: (env.listing.map (processFile wr hr method)).flatten := by
  simp [convert_videos_in_folder, h1, h2, hok]

/-! ### Claims -/

/-- C1.  The crop computation: when the source is strictly wider than the
target ratio the height is kept, the new width is
`floor(height * (w_ratio/h_ratio))` decremented by 1 if odd, and the crop
is centered horizontally at `width/2`; otherwise the width is kept, the
new height is `floor(width / (w_ratio/h_ratio))` decremented by 1 if odd,
and the crop is centered vertically at `height/2`.  In particular, a
1920×1080 source at ratio 1:1 crops to width 1080 with height
unchanged. -/
theorem crop_matches_spec (w h wr hr : ℤ)
    (hw : 0 < w) (hh : 0 < h) (hwr : 0 < wr) (hhr : 0 < hr) :
    (if (w : ℚ) / (h : ℚ) > (wr : ℚ) / (hr : ℚ) then
        (cropOut w h wr hr).height = h ∧
        (cropOut w h wr hr).width
          = evenDown (Int.floor ((h : ℚ) * ((wr : ℚ) / (hr : ℚ)))) ∧
        (cropOut w h wr hr).x_center = some ((w : ℚ) / 2)
      else
        (cropOut w h wr hr).width = w ∧
        (cropOut w h wr hr).height
          = evenDown (Int.floor ((w : ℚ) / ((wr : ℚ) / (hr : ℚ)))) ∧
        (cropOut w h wr hr).y_center = some ((h : ℚ) / 2)) ∧
    (cropOut 1920 1080 1 1).width = 1080 ∧
    (cropOut 1920 1080 1 1).height = 1080 := by
  refine ⟨?_, by norm_num [cropOut, pyTrunc, evenDown]⟩
  split
  next hc =>
    have hnn : (0:ℚ) ≤ (h : ℚ) * ((wr : ℚ) / (hr : ℚ)) :=
      mul_nonneg (by exact_mod_cast hh.le)
        (div_nonneg (by exact_mod_cast hwr.le) (by exact_mod_cast hhr.le))
    rw [cropOut_wide w h wr hr hc, pyTrunc_eq_floor hnn]
    exact ⟨rfl, rfl, rfl⟩
  next hc =>
    have hnn : (0:ℚ) ≤ (w : ℚ) / ((wr : ℚ) / (hr : ℚ)) :=
      div_nonneg (by exact_mod_cast hw.le)
        (div_nonneg (by exact_mod_cast hwr.le) (by exact_mod_cast hhr.le))
    rw [cropOut_tall w h wr hr hc, pyTrunc_eq_floor hnn]
    exact ⟨rfl, rfl, rfl⟩

/-- Witness for C1 at (1920, 1080, 1, 1). -/
theorem crop_matches_spec_witness :
    (0:ℤ) < 1920 ∧
    (cropOut 1920 1080 1 1).width = 1080 ∧
    (cropOut 1920 1080 1 1).height = 1080 :=
  ⟨by norm_num,
    (crop_matches_spec 1920 1080 1 1 (by norm_num) (by norm_num)
      (by norm_num) (by norm_num)).2⟩

/-- C2.  The letterbox computation: when the source is strictly wider than
the target ratio the width is kept and the final height is
`floor(width / (w_ratio/h_ratio))` decremented by 1 if odd; otherwise the
height is kept and the final width is `floor(height * (w_ratio/h_ratio))`
decremented by 1 if odd.  The canvas is black and the original frame is
centered within it. -/
theorem letterbox_matches_spec (w h wr hr : ℤ)
    (hw : 0 < w) (hh : 0 < h) (hwr : 0 < wr) (hhr : 0 < hr) :
    (if (w : ℚ) / (h : ℚ) > (wr : ℚ) / (hr : ℚ) then
        (letterboxOut w h wr hr).width = w ∧
        (letterboxOut w h wr hr).height
          = evenDown (Int.floor ((w : ℚ) / ((wr : ℚ) / (hr : ℚ))))
      else
        (letterboxOut w h wr hr).height = h ∧
        (letterboxOut w h wr hr).width
          = evenDown (Int.floor ((h : ℚ) * ((wr : ℚ) / (hr : ℚ))))) ∧
    (letterboxOut w h wr hr).bgColor = (0, 0, 0) ∧
    (letterboxOut w h wr hr).padLeft
      = (((letterboxOut w h wr hr).width : ℚ) - (w : ℚ)) / 2 ∧
    (letterboxOut w h wr hr).padTop
      = (((letterboxOut w h wr hr).height : ℚ) - (h : ℚ)) / 2 := by
  constructor
  · split
    next hc =>
      have hnn : (0:ℚ) ≤ (w : ℚ) / ((wr : ℚ) / (hr : ℚ)) :=
        div_nonneg (by exact_mod_cast hw.le)
          (div_nonneg (by exact_mod_cast hwr.le) (by exact_mod_cast hhr.le))
      rw [letterboxOut_wide w h wr hr hc, pyTrunc_eq_floor hnn]
      exact ⟨rfl, rfl⟩
    next hc =>
      have hnn : (0:ℚ) ≤ (h : ℚ) * ((wr : ℚ) / (hr : ℚ)) :=
        mul_nonneg (by exact_mod_cast hh.le)
          (div_nonneg (by exact_mod_cast hwr.le) (by exact_mod_cast hhr.le))
      rw [letterboxOut_tall w h wr hr hc, pyTrunc_eq_floor hnn]
      exact ⟨rfl, rfl⟩
  · by_cases hc : (w : ℚ) / (h : ℚ) > (wr : ℚ) / (hr : ℚ)
    · rw [letterboxOut_wide w h wr hr hc]
      exact ⟨rfl, rfl, rfl⟩
    · rw [letterboxOut_tall w h wr hr hc]
      exact ⟨rfl, rfl, rfl⟩

/-- Witness for C2 at (1920, 1080, 9, 16). -/
theorem letterbox_matches_spec_witness :
    (0:ℤ) < 1920 ∧ (letterboxOut 1920 1080 9 16).bgColor = (0, 0, 0) :=
  ⟨by norm_num,
    (letterbox_matches_spec 1920 1080 9 16 (by norm_num) (by norm_num)
      (by norm_num) (by norm_num)).2.1⟩

/-- Counterexample to C3 as stated: with a 101×100 source and target
ratio 1:1 the letterbox branch keeps the original width 101, which is
odd, so not every dimension produced by the calculator is even. -/
theorem letterbox_kept_dimension_odd_cex :
    (letterboxOut 101 100 1 1).width = 101 ∧
    ¬ 2 ∣ (letterboxOut 101 100 1 1).width := by
  norm_num [letterboxOut, pyTrunc, evenDown]

/-- C3 amended.  For all positive integer ratios and dimensions, the
dimension the calculator adjusts is even: the cropped axis of the crop
result and the padded axis of the letterbox result.  The kept axis of the
letterbox result is the unmodified original dimension, which may be
odd. -/
theorem adjusted_dimensions_even (w h wr hr : ℤ)
    (hw : 0 < w) (hh : 0 < h) (hwr : 0 < wr) (hhr : 0 < hr) :
    (if (w : ℚ) / (h : ℚ) > (wr : ℚ) / (hr : ℚ) then
        2 ∣ (cropOut w h wr hr).width ∧
        2 ∣ (letterboxOut w h wr hr).height ∧
        (letterboxOut w h wr hr).width = w
      else
        2 ∣ (cropOut w h wr hr).height ∧
        2 ∣ (letterboxOut w h wr hr).width ∧
        (letterboxOut w h wr hr).height = h) := by
  split
  next hc =>
    rw [cropOut_wide w h wr hr hc, letterboxOut_wide w h wr hr hc]
    exact ⟨evenDown_dvd _, evenDown_dvd _, rfl⟩
  next hc =>
    rw [cropOut_tall w h wr hr hc, letterboxOut_tall w h wr hr hc]
    exact ⟨evenDown_dvd _, evenDown_dvd _, rfl⟩

/-- Witness for C3's amended statement at (1920, 1080, 1, 1). -/
theorem adjusted_dimensions_even_witness :
    (0:ℤ) < 1920 ∧
    (if ((1920 : ℤ) : ℚ) / ((1080 : ℤ) : ℚ) > ((1 : ℤ) : ℚ) / ((1 : ℤ) : ℚ) then
        2 ∣ (cropOut 1920 1080 1 1).width ∧
        2 ∣ (letterboxOut 1920 1080 1 1).height ∧
        (letterboxOut 1920 1080 1 1).width = 1920
      else
        2 ∣ (cropOut 1920 1080 1 1).height ∧
        2 ∣ (letterboxOut 1920 1080 1 1).width ∧
        (letterboxOut 1920 1080 1 1).height = 1080) :=
  ⟨by norm_num,
    adjusted_dimensions_even 1920 1080 1 1 (by norm_num) (by norm_num)
      (by norm_num) (by norm_num)⟩

/-- Counterexample to C4 as stated: a 7×3 source at target ratio 2:1
letterboxes to height 2 < 3 — the even-rounding shrinks the padded axis
below the original. -/
theorem letterbox_shrinks_cex :
    (letterboxOut 7 3 2 1).height = 2 ∧
    ¬ 3 ≤ (letterboxOut 7 3 2 1).height := by
  norm_num [letterboxOut, pyTrunc, evenDown]

/-- C4 amended.  The letterbox canvas never shrinks the original by more
than one pixel: `final_width ≥ width - 1` and `final_height ≥ height - 1`
(the even-rounding can cost the padded axis a single pixel), one axis is
kept exactly, and the frame is centered with equal padding (in exact
coordinates) on both sides of each axis. -/
theorem letterbox_near_expansion (w h wr hr : ℤ)
    (hw : 0 < w) (hh : 0 < h) (hwr : 0 < wr) (hhr : 0 < hr) :
    w - 1 ≤ (letterboxOut w h wr hr).width ∧
    h - 1 ≤ (letterboxOut w h wr hr).height ∧
    ((letterboxOut w h wr hr).width = w ∨
      (letterboxOut w h wr hr).height = h) ∧
    ((letterboxOut w h wr hr).width : ℚ) - (w : ℚ)
        - (letterboxOut w h wr hr).padLeft
      = (letterboxOut w h wr hr).padLeft ∧
    ((letterboxOut w h wr hr).height : ℚ) - (h : ℚ)
        - (letterboxOut w h wr hr).padTop
      = (letterboxOut w h wr hr).padTop := by
  have hhq : (0:ℚ) < (h : ℚ) := by exact_mod_cast hh
  have hwrq : (0:ℚ) < (wr : ℚ) := by exact_mod_cast hwr
  have hhrq : (0:ℚ) < (hr : ℚ) := by exact_mod_cast hhr
  by_cases hc : (w : ℚ) / (h : ℚ) > (wr : ℚ) / (hr : ℚ)
  · have hnn : (0:ℚ) ≤ (w : ℚ) / ((wr : ℚ) / (hr : ℚ)) :=
      div_nonneg (by exact_mod_cast hw.le) (div_nonneg hwrq.le hhrq.le)
    have hgt : (h : ℚ) < (w : ℚ) / ((wr : ℚ) / (hr : ℚ)) := by
      rw [div_div_eq_mul_div, lt_div_iff₀ hwrq]
      have hc2 := hc
      rw [gt_iff_lt, div_lt_div_iff₀ hhrq hhq] at hc2
      linarith
    have hfl : h ≤ Int.floor ((w : ℚ) / ((wr : ℚ) / (hr : ℚ))) :=
      Int.le_floor.mpr hgt.le
    have hev := sub_one_le_evenDown (Int.floor ((w : ℚ) / ((wr : ℚ) / (hr : ℚ))))
    rw [letterboxOut_wide w h wr hr hc, pyTrunc_eq_floor hnn]
    dsimp only
    refine ⟨by omega, by omega, Or.inl rfl, by ring, by ring⟩
  · have hle : (w : ℚ) / (h : ℚ) ≤ (wr : ℚ) / (hr : ℚ) := not_lt.mp hc
    have hnn : (0:ℚ) ≤ (h : ℚ) * ((wr : ℚ) / (hr : ℚ)) :=
      mul_nonneg hhq.le (div_nonneg hwrq.le hhrq.le)
    have hge : (w : ℚ) ≤ (h : ℚ) * ((wr : ℚ) / (hr : ℚ)) := by
      rw [mul_div_assoc', le_div_iff₀ hhrq]
      have hle2 := hle
      rw [div_le_div_iff₀ hhq hhrq] at hle2
      linarith
    have hfl : w ≤ Int.floor ((h : ℚ) * ((wr : ℚ) / (hr : ℚ))) :=
      Int.le_floor.mpr hge
    have hev := sub_one_le_evenDown (Int.floor ((h : ℚ) * ((wr : ℚ) / (hr : ℚ))))
    rw [letterboxOut_tall w h wr hr hc, pyTrunc_eq_floor hnn]
    dsimp only
    refine ⟨by omega, by omega, Or.inr rfl, by ring, by ring⟩

/-- Witness for C4's amended statement at (1920, 1080, 9, 16). -/
theorem letterbox_near_expansion_witness :
    (0:ℤ) < 1920 ∧
    (1920 : ℤ) - 1 ≤ (letterboxOut 1920 1080 9 16).width ∧
    (1080 : ℤ) - 1 ≤ (letterboxOut 1920 1080 9 16).height :=
  ⟨by norm_num,
    (letterbox_near_expansion 1920 1080 9 16 (by norm_num) (by norm_num)
      (by norm_num) (by norm_num)).1,
    (letterbox_near_expansion 1920 1080 9 16 (by norm_num) (by norm_num)
      (by norm_num) (by norm_num)).2.1⟩

/-- C5.  The crop result never exceeds the original frame: both output
dimensions are at most the originals, and at least one axis is kept
exactly. -/
theorem crop_never_exceeds (w h wr hr : ℤ)
    (hw : 0 < w) (hh : 0 < h) (hwr : 0 < wr) (hhr : 0 < hr) :
    (cropOut w h wr hr).width ≤ w ∧
    (cropOut w h wr hr).height ≤ h ∧
    ((cropOut w h wr hr).width = w ∨ (cropOut w h wr hr).height = h) := by
  have hhq : (0:ℚ) < (h : ℚ) := by exact_mod_cast hh
  have hwrq : (0:ℚ) < (wr : ℚ) := by exact_mod_cast hwr
  have hhrq : (0:ℚ) < (hr : ℚ) := by exact_mod_cast hhr
  by_cases hc : (w : ℚ) / (h : ℚ) > (wr : ℚ) / (hr : ℚ)
  · have hnn : (0:ℚ) ≤ (h : ℚ) * ((wr : ℚ) / (hr : ℚ)) :=
      mul_nonneg hhq.le (div_nonneg hwrq.le hhrq.le)
    have hlt : (h : ℚ) * ((wr : ℚ) / (hr : ℚ)) < (w : ℚ) := by
      rw [mul_div_assoc', div_lt_iff₀ hhrq]
      have hc2 := hc
      rw [gt_iff_lt, div_lt_div_iff₀ hhrq hhq] at hc2
      linarith
    have hfl : Int.floor ((h : ℚ) * ((wr : ℚ) / (hr : ℚ))) ≤ w := by
      have h2 : (Int.floor ((h : ℚ) * ((wr : ℚ) / (hr : ℚ))) : ℚ) < (w : ℚ) :=
        lt_of_le_of_lt (Int.floor_le _) hlt
      exact_mod_cast h2.le
    have hev := evenDown_le (Int.floor ((h : ℚ) * ((wr : ℚ) / (hr : ℚ))))
    rw [cropOut_wide w h wr hr hc, pyTrunc_eq_floor hnn]
    dsimp only
    exact ⟨by omega, le_refl h, Or.inr rfl⟩
  · have hle : (w : ℚ) / (h : ℚ) ≤ (wr : ℚ) / (hr : ℚ) := not_lt.mp hc
    have hnn : (0:ℚ) ≤ (w : ℚ) / ((wr : ℚ) / (hr : ℚ)) :=
      div_nonneg (by exact_mod_cast hw.le) (div_nonneg hwrq.le hhrq.le)
    have hge : (w : ℚ) / ((wr : ℚ) / (hr : ℚ)) ≤ (h : ℚ) := by
      rw [div_div_eq_mul_div, div_le_iff₀ hwrq]
      have hle2 := hle
      rw [div_le_div_iff₀ hhq hhrq] at hle2
      linarith
    have hfl : Int.floor ((w : ℚ) / ((wr : ℚ) / (hr : ℚ))) ≤ h := by
      have h2 : (Int.floor ((w : ℚ) / ((wr : ℚ) / (hr : ℚ))) : ℚ) ≤ (h : ℚ) :=
        le_trans (Int.floor_le _) hge
      exact_mod_cast h2
    have hev := evenDown_le (Int.floor ((w : ℚ) / ((wr : ℚ) / (hr : ℚ))))
    rw [cropOut_tall w h wr hr hc, pyTrunc_eq_floor hnn]
    dsimp only
    exact ⟨le_refl w, by omega, Or.inl rfl⟩

/-- Witness for C5 at (1920, 1080, 1, 1). -/
theorem crop_never_exceeds_witness :
    (0:ℤ) < 1920 ∧
    (cropOut 1920 1080 1 1).width ≤ 1920 ∧
    (cropOut 1920 1080 1 1).height ≤ 1080 :=
  ⟨by norm_num,
    (crop_never_exceeds 1920 1080 1 1 (by norm_num) (by norm_num)
      (by norm_num) (by norm_num)).1,
    (crop_never_exceeds 1920 1080 1 1 (by norm_num) (by norm_num)
      (by norm_num) (by norm_num)).2.1⟩

/-- C6.  Letterboxing a 1920×1080 source to 9:16 yields a 1920×3412
canvas (`floor(1920/(9/16)) = 3413`, decremented to 3412 because odd),
padded vertically (no horizontal offset). -/
theorem letterbox_916_example :
    (letterboxOut 1920 1080 9 16).width = 1920 ∧
    (letterboxOut 1920 1080 9 16).height = 3412 ∧
    (letterboxOut 1920 1080 9 16).padLeft = 0 ∧
    (letterboxOut 1920 1080 9 16).padTop = 1166 := by
  norm_num [letterboxOut, pyTrunc, evenDown]

/-- C7.  When the ratio string does not parse as `"W:H"` with positive
integer components, the run reports the ratio error and produces no
directory scan, no file load and no file write. -/
theorem bad_ratio_aborts_before_scan (env : Env) (rs method : String)
    (h1 : env.moviepyInstalled = true) (h2 : env.folderExists = true)
    (hbad : parseRatio rs = none) :
    Event.errBadRatio ∈ convert_videos_in_folder env rs method ∧
    (convert_videos_in_folder env rs method).filter
        (fun e => e.isScan || e.isLoad || e.isWrite) = [] := by
  rw [convert_trace_badRatio env rs method h1 h2 hbad]
  constructor
  · exact List.mem_append_right _ (List.mem_cons_self _ _)
  · rw [List.filter_append]
    have hmk : (if env.outputExists then [] else [Event.createOutputDir]).filter
        (fun e => e.isScan || e.isLoad || e.isWrite) = [] := by
      split <;> rfl
    rw [hmk]
    rfl

/-- Witness for C7: the environment `envA` with ratio string "abc". -/
theorem bad_ratio_aborts_before_scan_witness :
    parseRatio "abc" = none ∧
    (Event.errBadRatio ∈ convert_videos_in_folder envA "abc" "crop" ∧
      (convert_videos_in_folder envA "abc" "crop").filter
          (fun e => e.isScan || e.isLoad || e.isWrite) = []) :=
  ⟨by decide, bad_ratio_aborts_before_scan envA "abc" "crop" rfl rfl (by decide)⟩

/-- C8.  With a valid ratio but a conversion method that is neither
`"crop"` nor `"letterbox"`, every qualifying file in the listing gets an
invalid-method error event, and no file write occurs in the whole run. -/
theorem invalid_method_skips_files (env : Env) (rs method : String) (wr hr : ℤ)
    (h1 : env.moviepyInstalled = true) (h2 : env.folderExists = true)
    (hok : parseRatio rs = some (wr, hr))
    (hm1 : method ≠ "crop") (hm2 : method ≠ "letterbox")
    (e : FileEntry) (he : e ∈ env.listing)
    (hfile : e.isFile = true) (hvid : isVideoFile e.name = true) :
    Event.errInvalidMethod e.name ∈ convert_videos_in_folder env rs method ∧
    (convert_videos_in_folder env rs method).filter Event.isWrite = [] := by
  have hpf : processFile wr hr method e
      = [Event.loadFile e.name, Event.errInvalidMethod e.name] := by
    dsimp only [processFile]
    rw [if_pos (show (e.isFile && isVideoFile e.name) = true by
      rw [hfile, hvid]; rfl), if_neg hm1, if_neg hm2]
  rw [convert_trace_ok env rs method wr hr h1 h2 hok]
  constructor
  · refine List.mem_append_right _ (List.mem_cons_of_mem _ ?_)
    refine List.mem_flatten.mpr ⟨processFile wr hr method e, ?_, ?_⟩
    · exact List.mem_map_of_mem _ he
    · rw [hpf]
      exact List.mem_cons_of_mem _ (List.mem_cons_self _ _)
  · rw [List.filter_append]
    have hmk : (if env.outputExists then [] else [Event.createOutputDir]).filter
        Event.isWrite = [] := by
      split <;> rfl
    have hfl2 : ((env.listing.map (processFile wr hr method)).flatten).filter
        Event.isWrite = [] := by
      apply filter_flatten_eq_nil
      intro l hl
      obtain ⟨e2, he2, hle⟩ := List.mem_map.mp hl
      rw [← hle]
      exact processFile_no_write wr hr method e2 hm1 hm2
    rw [hmk, List.filter_cons, if_neg (by decide : ¬ Event.isWrite Event.scanDir = true),
      hfl2]
    rfl

/-- Witness for C8: `envA` with ratio "1:1" and method "resize". -/
theorem invalid_method_skips_files_witness :
    parseRatio "1:1" = some (1, 1) ∧
    (Event.errInvalidMethod fileA.name
        ∈ convert_videos_in_folder envA "1:1" "resize" ∧
      (convert_videos_in_folder envA "1:1" "resize").filter Event.isWrite
        = []) :=
  ⟨by decide,
    invalid_method_skips_files envA "1:1" "resize" 1 1 rfl rfl (by decide)
      (by decide) (by decide) fileA (by decide) rfl (by decide)⟩

/-- C9.  With the input folder present, the output folder absent and a
malformed ratio string, the run's whole trace is: create the output
directory, then report the ratio error — so the aborted run has already
created the output directory. -/
theorem output_dir_created_before_ratio_check (env : Env) (rs method : String)
    (h1 : env.moviepyInstalled = true) (h2 : env.folderExists = true)
    (h3 : env.outputExists = false) (hbad : parseRatio rs = none) :
    convert_videos_in_folder env rs method
      = [Event.createOutputDir, Event.errBadRatio] := by
  rw [convert_trace_badRatio env rs method h1 h2 hbad, h3]
  rfl

/-- Witness for C9: the environment `envC` with ratio string "abc". -/
theorem output_dir_created_before_ratio_check_witness :
    parseRatio "abc" = none ∧
    convert_videos_in_folder envC "abc" "crop"
      = [Event.createOutputDir, Event.errBadRatio] :=
  ⟨by decide,
    output_dir_created_before_ratio_check envC "abc" "crop" rfl rfl rfl
      (by decide)⟩

/-- C10.  The crop computation can produce a zero dimension: a 100×2
source at target ratio 1:1000 crops to width 0, so the computed output
dimensions are not guaranteed to be positive. -/
theorem crop_can_yield_zero :
    (cropOut 100 2 1 1000).width = 0 ∧
    ¬ 0 < (cropOut 100 2 1 1000).width ∧
    (cropOut 100 2 1 1000).height = 2 := by
  norm_num [cropOut, pyTrunc, evenDown]

end VideoRatioTool
